import Mathlib

/-!
# Verification of the secure tarball extraction routine in
# `scripts/download_xz_from_github.py` (node-liblzma)

A shallow embedding, over `List Char` / `String`, of the functions
`is_safe_path` and `extract_tarball` together with the POSIX path helpers
they call (`str.replace`, `str.split`, `posixpath.normpath`,
`posixpath.join`, `posixpath.abspath`, `posixpath.commonpath`,
`pathlib.PurePosixPath.parts`).  Paths are strings; the filesystem is not
consulted (the Python code's checks are purely lexical).  The current
working directory, which `os.path.abspath` reads for relative inputs, is
passed explicitly as `cwd`.
-/

/-- Python `s.replace('\\', '/')` on a one-character pattern: map each
backslash to a forward slash. -/
def repSlash (s : List Char) : List Char :=
  s.map (fun c => if c = '\\' then '/' else c)

/-- Python `pat in s` (substring containment) on character lists. -/
def hasSubstr (pat : List Char) : List Char → Bool
  | [] => pat.isPrefixOf []
  | c :: rest => pat.isPrefixOf (c :: rest) || hasSubstr pat rest

/-- Python `s.split(sep)` for a one-character separator: splits on every
occurrence and keeps empty groups, so the result is always nonempty. -/
def splitOnChar (sep : Char) : List Char → List (List Char)
  | [] => [[]]
  | c :: rest =>
    match splitOnChar sep rest with
    | [] => [[]]
    | g :: gs => if c = sep then [] :: g :: gs else (c :: g) :: gs

/-- Python `'/'.join(groups)`. -/
def joinSlash : List (List Char) → List Char
  | [] => []
  | [c] => c
  | c :: rest => c ++ '/' :: joinSlash rest

/-- Python `s.startswith('/')` (`posixpath.isabs`). -/
def isAbsL (s : List Char) : Bool :=
  decide (s.take 1 = ['/'])

/-- One step of the component loop of `posixpath.normpath`: `acc` is the
`new_comps` list of the CPython source held in reverse. -/
def npStep (isAbs : Bool) (acc : List (List Char)) (comp : List Char) :
    List (List Char) :=
  if comp = [] ∨ comp = ['.'] then acc
  else if comp = ['.', '.'] then
    match acc with
    | [] => if isAbs then [] else [comp]
    | a :: t => if a = ['.', '.'] then comp :: acc else t
  else comp :: acc

/-- The `initial_slashes` count of `posixpath.normpath`: 2 for a path that
starts with exactly two slashes, otherwise 1 for an absolute path, else 0. -/
def normSlashes (s : List Char) : Nat :=
  if s.take 1 = ['/'] then
    if s.take 2 = ['/', '/'] ∧ s.take 3 ≠ ['/', '/', '/'] then 2 else 1
  else 0

/-- The joined body of `posixpath.normpath` before the `or '.'` fallback. -/
def normBody (s : List Char) : List Char :=
  List.replicate (normSlashes s) '/' ++
    joinSlash
      ((List.foldl (npStep (decide (0 < normSlashes s))) []
        (splitOnChar '/' s)).reverse)

/-- `posixpath.normpath`: purely lexical resolution of `.`, `..`, and
repeated separators. -/
def normpath (s : List Char) : List Char :=
  if s = [] then ['.']
  else if normBody s = [] then ['.'] else normBody s

/-- `posixpath.join` for two arguments. -/
def pyJoin (a b : List Char) : List Char :=
  if b.take 1 = ['/'] then b
  else if a = [] ∨ a.getLast? = some '/' then a ++ b
  else a ++ '/' :: b

/-- `posixpath.abspath` with the process working directory passed
explicitly: join a relative path onto `cwd`, then normalise. -/
def abspath (cwd p : List Char) : List Char :=
  if p.take 1 = ['/'] then normpath p else normpath (pyJoin cwd p)

/-- The cleaned component list used by `posixpath.commonpath`: split on
slashes, dropping empty components and `'.'`. -/
def cleanComps (p : List Char) : List (List Char) :=
  (splitOnChar '/' p).filter (fun c => decide (c ≠ []) && decide (c ≠ ['.']))

/-- Longest common prefix of two component lists; for two paths this is the
`common` computed by `posixpath.commonpath`. -/
def lcp : List (List Char) → List (List Char) → List (List Char)
  | a :: as, b :: bs => if a = b then a :: lcp as bs else []
  | _, _ => []

/-- `posixpath.commonpath([p1, p2])`.  Mixing an absolute and a relative
path raises `ValueError`, modelled as `Except.error`. -/
def commonpath2 (p1 p2 : List Char) : Except Unit (List Char) :=
  if isAbsL p1 ≠ isAbsL p2 then Except.error ()
  else Except.ok
    ((if isAbsL p1 then ['/'] else []) ++ joinSlash (lcp (cleanComps p1) (cleanComps p2)))

/-- `pathlib.PurePosixPath(s).parts` for a relative `s`: slash-separated
components with empty components and `'.'` dropped. -/
def pathParts (s : List Char) : List (List Char) :=
  (splitOnChar '/' s).filter (fun c => decide (c ≠ []) && decide (c ≠ ['.']))

/-- The per-component rejection conditions of `is_safe_path` (source lines
134–143): dangerous components, absolute-path indicators, a colon, a null
byte or a control character other than tab. -/
def badPart (part : List Char) : Bool :=
  decide (part = ['.', '.']) || decide (part = ['.']) || decide (part = []) ||
  ['.', '.'].isPrefixOf part ||
  decide (part.take 1 = ['/']) ||
  part.contains ':' ||
  part.contains (Char.ofNat 0) ||
  part.any (fun c => decide (c ≠ '\t') && decide (c.toNat < 32))

/-- The body of the `try:` block of `is_safe_path` (source lines 147–157
plus the final `return True`): resolve the joined path, compare the common
path with the extraction directory, then double-check with a string-prefix
test.  A `ValueError` from `commonpath` propagates as `Except.error`. -/
def try_block (ed n cwd : List Char) : Except Unit Bool :=
  match commonpath2 (abspath cwd (pyJoin ed n)) ed with
  | Except.error e => Except.error e
  | Except.ok common =>
    if common ≠ ed then Except.ok false
    else if ((ed ++ ['/']).isPrefixOf (abspath cwd (pyJoin ed n))) = false ∧
        abspath cwd (pyJoin ed n) ≠ ed then Except.ok false
    else Except.ok true

/-- The `except (ValueError, OSError): return False` handler wrapped around
the try block. -/
def catchBool : Except Unit Bool → Bool
  | Except.error _ => false
  | Except.ok b => b

/-- `is_safe_path(member_path, extract_dir)` from
`scripts/download_xz_from_github.py` lines 121–159, with the working
directory for `os.path.abspath` passed explicitly as `cwd`. -/
def is_safe_path (member_path extract_dir cwd : String) : Bool :=
  if member_path.toList = [] ∨ member_path.toList.take 1 = ['/'] ∨
      member_path.toList.take 1 = ['\\'] then false
  else if hasSubstr ['.', '.'] (repSlash member_path.toList) then false
  else if (pathParts (repSlash member_path.toList)).any badPart then false
  else
    catchBool
      (try_block (abspath cwd.toList extract_dir.toList)
        (repSlash member_path.toList) cwd.toList)

/-- `is_safe_path` with the `try/except` handler removed, so that the
`ValueError`/`OSError` a path-resolution step could raise propagates to the
caller instead of being caught. -/
def is_safe_pathE (member_path extract_dir cwd : String) : Except Unit Bool :=
  if member_path.toList = [] ∨ member_path.toList.take 1 = ['/'] ∨
      member_path.toList.take 1 = ['\\'] then Except.ok false
  else if hasSubstr ['.', '.'] (repSlash member_path.toList) then Except.ok false
  else if (pathParts (repSlash member_path.toList)).any badPart then Except.ok false
  else
    try_block (abspath cwd.toList extract_dir.toList)
      (repSlash member_path.toList) cwd.toList

example : is_safe_path "a/b" "/tmp" "/" = true := by decide
example : is_safe_path "../x" "/tmp" "/" = false := by decide
example : is_safe_path "notes..txt" "/tmp" "/" = false := by decide
example : is_safe_path "" "/tmp" "/" = false := by decide
example : is_safe_path "a:b" "/tmp" "/" = false := by decide
example : is_safe_path "." "/tmp" "/" = true := by decide

/-! ## The tarball extraction model (`extract_tarball`, source lines 161–224) -/

/-- The kind of a tar archive member, as classified by
`tarfile.TarInfo.isreg` / `isdir` / `issym` / `islnk`. -/
inductive MemberKind where
  | reg : MemberKind
  | dir : MemberKind
  | sym : MemberKind
  | lnk : MemberKind
  | other : MemberKind
deriving DecidableEq

/-- One tar archive member: its stored path, kind, link target (empty for
non-links) and declared size in bytes. -/
structure TarMember where
  name : String
  typ : MemberKind
  linkname : String
  size : Nat
deriving DecidableEq

/-- A filesystem effect performed by the extraction routine. -/
inductive FsEvent where
  | mkdirRoot : String → FsEvent
  | written : String → FsEvent
  | linkCreated : String → String → FsEvent
deriving DecidableEq

/-- The exceptions `extract_tarball` can raise: `ValueError("Empty
tarball")` (line 172), the `AttributeError` from the nonexistent
`TarInfo.islink` attribute (line 194), and `ValueError("No safe members to
extract")` (line 206). -/
inductive ExtractError where
  | emptyTarball : ExtractError
  | attributeError : ExtractError
  | noSafeMembers : ExtractError
deriving DecidableEq

/-- The outcome of one `extract_tarball` call: the filesystem effects that
happened before it returned or raised, and the exception if it raised. -/
structure ExtractResult where
  events : List FsEvent
  error : Option ExtractError
deriving DecidableEq

/-- `members[0].name.split('/')[0]` (source line 175): the first
slash-delimited component of the first member's path. -/
def rootOfName (name : String) : String :=
  (name.toList.takeWhile (fun c => c ≠ '/')).asString

/-- Python `s.replace(pat, rep, 1)`: replace the leftmost occurrence of
`pat` (of any, possibly empty, length) with `rep`. -/
def replaceFirst (pat rep : List Char) : List Char → List Char
  | [] => if pat.isPrefixOf [] then rep else []
  | c :: rest =>
    if pat.isPrefixOf (c :: rest) then rep ++ (c :: rest).drop pat.length
    else c :: replaceFirst pat rep rest

/-- The root-rewrite step of the member loop (source lines 182–186): drop a
member whose path does not start with `root_dir`, otherwise replace the
first occurrence of `root_dir` with the literal `xz`. -/
def rewrite_member_name (root_dir name : String) : Option String :=
  if root_dir.toList.isPrefixOf name.toList then
    some ((replaceFirst root_dir.toList ['x', 'z'] name.toList).asString)
  else none

/-- The claim's reading of the root rewrite (spec §4.2): for a member path
starting with `rootDir`, replace the whole leading slash-delimited
component with `xz` and keep the remainder verbatim; drop other members. -/
def spec_rewrite_member_name (root_dir name : String) : Option String :=
  if root_dir.toList.isPrefixOf name.toList then
    some (('x' :: 'z' :: name.toList.dropWhile (fun c => c ≠ '/')).asString)
  else none

/-- The validation loop of `extract_tarball` (source lines 179–203).  A
member that fails the root-prefix test or whose rewritten path fails
`is_safe_path` is skipped.  The first member that passes both reaches
`member.islink()` on line 194; `tarfile.TarInfo` has no `islink` attribute,
so that lookup raises `AttributeError`, modelled as `Except.error ()`. -/
def plan_loop (root ed cwd : String) : List TarMember → Except Unit (List TarMember)
  | [] => Except.ok []
  | m :: rest =>
    match rewrite_member_name root m.name with
    | none => plan_loop root ed cwd rest
    | some new_name =>
      if is_safe_path new_name ed cwd = false then plan_loop root ed cwd rest
      else Except.error ()

/-- `True` (as a `Bool`) when the member is dropped by the validation loop
before reaching line 194: it is not under the root directory, or its
rewritten path fails `is_safe_path`. -/
def member_rejected (root ed cwd : String) (m : TarMember) : Bool :=
  match rewrite_member_name root m.name with
  | none => true
  | some new_name => ! is_safe_path new_name ed cwd

/-- The rewritten (root-renamed) form of a link target: the same root
rewrite applied when it matches, the target unchanged otherwise. -/
def rewrite_link_target (root target : String) : String :=
  match rewrite_member_name root target with
  | some t => t
  | none => target

/-- Modelled from the spec: the per-member materialization performed by the
extraction runtime (the call `tfile.extract(...)`, i.e. Python's `tarfile`
module), which is not part of this repository's sources.  Spec §4.3 step 7:
create parent directories as needed; for regular files, stream file content
to the rewritten path; for links, recreate the link pointing at the
rewritten target when the target is itself within the plan, otherwise skip
the link and log it. -/
def extract_member_step (plan : List TarMember) (root : String) (m : TarMember) :
    List FsEvent :=
  match m.typ with
  | MemberKind.sym =>
    if plan.any (fun pm => decide (pm.name = rewrite_link_target root m.linkname)) then
      [FsEvent.linkCreated m.name (rewrite_link_target root m.linkname)]
    else []
  | MemberKind.lnk =>
    if plan.any (fun pm => decide (pm.name = rewrite_link_target root m.linkname)) then
      [FsEvent.linkCreated m.name (rewrite_link_target root m.linkname)]
    else []
  | _ => [FsEvent.written m.name]

/-- The body of the write loop for one planned member (source lines
209–222).  When the runtime supports the `filter='data'` parameter the
member is extracted directly; otherwise the call raises `TypeError` and the
fallback first skips regular files larger than 100 MiB (lines 216–218),
then extracts without the filter (line 219). -/
def write_member (filterAvailable : Bool) (plan : List TarMember) (root : String)
    (m : TarMember) : List FsEvent :=
  if filterAvailable then extract_member_step plan root m
  else if m.typ = MemberKind.reg ∧ 100 * 1024 * 1024 < m.size then []
  else extract_member_step plan root m

/-- The write loop of `extract_tarball` (source lines 208–222): the planned
members are materialized one by one, in archive order. -/
def write_phase (filterAvailable : Bool) (plan : List TarMember) (root : String) :
    List FsEvent :=
  (plan.map (write_member filterAvailable plan root)).flatten

/-- `os.path.abspath` on strings, with an explicit working directory. -/
def abspathStr (cwd p : String) : String :=
  (abspath cwd.toList p.toList).asString

/-- `extract_tarball(tarball_path, extract_dir)` (source lines 161–224),
abstracted over the already-open archive's member list and over whether the
runtime supports the `filter` parameter of `tarfile.extract`.  The
destination directory is created first (line 167); an empty archive raises
`ValueError` (line 172); the validation loop either raises the
`AttributeError` of line 194 or rejects every member, in which case line
206 raises `ValueError("No safe members to extract")`. -/
def extract_tarball (members : List TarMember) (extract_dir cwd : String)
    (filterAvailable : Bool) : ExtractResult :=
  match members with
  | [] => ⟨[FsEvent.mkdirRoot (abspathStr cwd extract_dir)],
      some ExtractError.emptyTarball⟩
  | m0 :: rest =>
    match plan_loop (rootOfName m0.name) (abspathStr cwd extract_dir) cwd (m0 :: rest) with
    | Except.error _ => ⟨[FsEvent.mkdirRoot (abspathStr cwd extract_dir)],
        some ExtractError.attributeError⟩
    | Except.ok safe =>
      match safe with
      | [] => ⟨[FsEvent.mkdirRoot (abspathStr cwd extract_dir)],
          some ExtractError.noSafeMembers⟩
      | s0 :: srest =>
        ⟨FsEvent.mkdirRoot (abspathStr cwd extract_dir) ::
          write_phase filterAvailable (s0 :: srest) (rootOfName m0.name), none⟩

example : rootOfName "proj-abc/src/a.c" = "proj-abc" := by decide
example : rewrite_member_name "proj" "proj/a.c" = some "xz/a.c" := by decide
example : rewrite_member_name "proj" "other/a.c" = none := by decide
example : rewrite_member_name "proj" "proj2/file" = some "xz2/file" := by decide
example :
    extract_tarball [⟨"proj/../x", MemberKind.reg, "", 0⟩] "/tmp/out" "/" true =
      ⟨[FsEvent.mkdirRoot "/tmp/out"], some ExtractError.noSafeMembers⟩ := by decide
example :
    extract_tarball [⟨"proj/a", MemberKind.reg, "", 0⟩] "/tmp/out" "/" true =
      ⟨[FsEvent.mkdirRoot "/tmp/out"], some ExtractError.attributeError⟩ := by decide

/-! ## Auxiliary lemmas about the path primitives -/

lemma splitOnChar_cons (sep c : Char) (rest : List Char) :
    splitOnChar sep (c :: rest) =
      match splitOnChar sep rest with
      | [] => [[]]
      | g :: gs => if c = sep then [] :: g :: gs else (c :: g) :: gs := rfl

lemma splitOnChar_cons_eq (sep c : Char) (rest g : List Char)
    (gs : List (List Char)) (h : splitOnChar sep rest = g :: gs) :
    splitOnChar sep (c :: rest) =
      if c = sep then [] :: g :: gs else (c :: g) :: gs := by
  rw [splitOnChar_cons, h]

lemma splitOnChar_ne_nil (sep : Char) (s : List Char) : splitOnChar sep s ≠ [] := by
  cases s with
  | nil => simp [splitOnChar]
  | cons c rest =>
    cases h : splitOnChar sep rest with
    | nil =>
      rw [splitOnChar_cons, h]
      simp
    | cons g gs =>
      rw [splitOnChar_cons_eq sep c rest g gs h]
      split <;> simp

lemma splitOnChar_no_sep (sep : Char) (s : List Char) :
    ∀ c ∈ splitOnChar sep s, sep ∉ c := by
  induction s with
  | nil =>
    intro c hc
    simp [splitOnChar] at hc
    simp [hc]
  | cons a rest ih =>
    intro c hc
    cases h : splitOnChar sep rest with
    | nil => exact absurd h (splitOnChar_ne_nil sep rest)
    | cons g gs =>
      rw [splitOnChar_cons_eq sep a rest g gs h] at hc
      by_cases ha : a = sep
      · rw [if_pos ha] at hc
        rcases List.mem_cons.mp hc with h1 | h1
        · simp [h1]
        · exact ih c (h ▸ h1)
      · rw [if_neg ha] at hc
        rcases List.mem_cons.mp hc with h1 | h1
        · subst h1
          intro hmem
          rcases List.mem_cons.mp hmem with h2 | h2
          · exact ha h2.symm
          · exact ih g (h ▸ List.mem_cons_self g gs) h2
        · exact ih c (h ▸ List.mem_cons_of_mem g h1)

lemma npStep_inv (b : Bool) (acc : List (List Char)) (comp : List Char)
    (hacc : ∀ x ∈ acc, x ≠ [] ∧ '/' ∉ x) (hcomp : '/' ∉ comp) :
    ∀ x ∈ npStep b acc comp, x ≠ [] ∧ '/' ∉ x := by
  intro x hx
  unfold npStep at hx
  by_cases h1 : comp = [] ∨ comp = ['.']
  · rw [if_pos h1] at hx
    exact hacc x hx
  · rw [if_neg h1] at hx
    by_cases h2 : comp = ['.', '.']
    · rw [if_pos h2] at hx
      cases acc with
      | nil =>
        simp only at hx
        cases b with
        | true => simp at hx
        | false =>
          simp at hx
          subst hx
          exact ⟨by simp [h2], hcomp⟩
      | cons a t =>
        simp only at hx
        by_cases h3 : a = ['.', '.']
        · rw [if_pos h3] at hx
          rcases List.mem_cons.mp hx with h4 | h4
          · subst h4
            exact ⟨by simp [h2], hcomp⟩
          · exact hacc x h4
        · rw [if_neg h3] at hx
          exact hacc x (List.mem_cons_of_mem a hx)
    · rw [if_neg h2] at hx
      rcases List.mem_cons.mp hx with h4 | h4
      · subst h4
        exact ⟨fun hnil => h1 (Or.inl hnil), hcomp⟩
      · exact hacc x h4

lemma foldl_npStep_inv (b : Bool) (comps : List (List Char)) :
    ∀ acc : List (List Char), (∀ c ∈ comps, '/' ∉ c) →
    (∀ x ∈ acc, x ≠ [] ∧ '/' ∉ x) →
    ∀ x ∈ List.foldl (npStep b) acc comps, x ≠ [] ∧ '/' ∉ x := by
  induction comps with
  | nil => intro acc _ hacc x hx; exact hacc x hx
  | cons c cs ih =>
    intro acc hcomps hacc x hx
    simp only [List.foldl_cons] at hx
    exact ih (npStep b acc c)
      (fun d hd => hcomps d (List.mem_cons_of_mem c hd))
      (npStep_inv b acc c hacc (hcomps c (List.mem_cons_self c cs))) x hx

lemma joinSlash_take1 (cs : List (List Char))
    (h : ∀ x ∈ cs, x ≠ [] ∧ '/' ∉ x) : (joinSlash cs).take 1 ≠ ['/'] := by
  match cs with
  | [] => simp [joinSlash]
  | [c] =>
    have hc := h c (List.mem_cons_self c [])
    match c, hc with
    | a :: as, hc =>
      simp only [joinSlash, List.take_cons, List.take_zero]
      intro heq
      have : a = '/' := by simpa using heq
      exact hc.2 (this ▸ List.mem_cons_self a as)
  | c :: c2 :: rest =>
    have hc := h c (List.mem_cons_self c (c2 :: rest))
    match c, hc with
    | a :: as, hc =>
      simp only [joinSlash, List.cons_append, List.take_cons, List.take_zero]
      intro heq
      have : a = '/' := by simpa using heq
      exact hc.2 (this ▸ List.mem_cons_self a as)

lemma normBody_take1 (s : List Char) (h : s.take 1 ≠ ['/']) :
    (normBody s).take 1 ≠ ['/'] := by
  have hz : normSlashes s = 0 := by
    unfold normSlashes
    rw [if_neg h]
  unfold normBody
  rw [hz]
  simp only [List.replicate_zero, List.nil_append]
  apply joinSlash_take1
  intro x hx
  rw [List.mem_reverse] at hx
  exact foldl_npStep_inv _ (splitOnChar '/' s) []
    (fun c hc => splitOnChar_no_sep '/' s c hc) (by simp) x hx

lemma replicate_append_take1 (k : Nat) (t : List Char) (hk : 0 < k) :
    (List.replicate k '/' ++ t).take 1 = ['/'] := by
  cases k with
  | zero => exact absurd hk (by simp)
  | succ n => simp [List.replicate_succ]

lemma normpath_ne_nil (s : List Char) : normpath s ≠ [] := by
  unfold normpath
  split_ifs with h1 h2 <;> simp_all

lemma isAbsL_normpath (s : List Char) : isAbsL (normpath s) = isAbsL s := by
  by_cases h0 : s = []
  · subst h0; rfl
  · unfold normpath
    rw [if_neg h0]
    by_cases habs : s.take 1 = ['/']
    · have hk : 0 < normSlashes s := by
        unfold normSlashes
        rw [if_pos habs]
        split <;> simp
      have hb : (normBody s).take 1 = ['/'] :=
        replicate_append_take1 (normSlashes s) _ hk
      have hne : normBody s ≠ [] := by
        intro hnil
        rw [hnil] at hb
        simp at hb
      rw [if_neg hne]
      simp [isAbsL, hb, habs]
    · have hb : (normBody s).take 1 ≠ ['/'] := normBody_take1 s habs
      by_cases hne : normBody s = []
      · rw [if_pos hne]
        simp [isAbsL, habs]
      · rw [if_neg hne]
        simp [isAbsL, hb, habs]

lemma abspath_ne_nil (cwd p : List Char) : abspath cwd p ≠ [] := by
  unfold abspath
  split_ifs <;> exact normpath_ne_nil _

lemma append_take1 (a b : List Char) (h : a ≠ []) : (a ++ b).take 1 = a.take 1 := by
  match a with
  | [] => exact absurd rfl h
  | x :: xs => simp

lemma pyJoin_take1 (a b : List Char) (hb : b.take 1 ≠ ['/']) (ha : a ≠ []) :
    (pyJoin a b).take 1 = a.take 1 := by
  unfold pyJoin
  rw [if_neg hb]
  split_ifs with h2
  · exact append_take1 a b ha
  · rw [append_take1 a ('/' :: b) ha]

lemma isAbsL_abspath (cwd x : List Char) :
    isAbsL (abspath cwd x) = (isAbsL x || isAbsL cwd) := by
  unfold abspath
  by_cases hx : x.take 1 = ['/']
  · rw [if_pos hx, isAbsL_normpath]
    simp [isAbsL, hx]
  · rw [if_neg hx, isAbsL_normpath]
    by_cases hcwd : cwd = []
    · subst hcwd
      have : pyJoin [] x = x := by
        unfold pyJoin
        rw [if_neg hx, if_pos (Or.inl rfl)]
        simp
      rw [this]
      simp [isAbsL, hx]
    · rw [show isAbsL (pyJoin cwd x) = isAbsL cwd by
        simp [isAbsL, pyJoin_take1 cwd x hx hcwd]]
      simp [isAbsL, hx]

lemma isAbsL_false_take1 {n : List Char} (h : isAbsL n = false) : n.take 1 ≠ ['/'] := by
  simp [isAbsL] at h
  exact h

lemma repSlash_not_abs (p : List Char) (h0 : p ≠ []) (h1 : p.take 1 ≠ ['/'])
    (h2 : p.take 1 ≠ ['\\']) : isAbsL (repSlash p) = false := by
  obtain ⟨c, cs, rfl⟩ := List.exists_cons_of_ne_nil h0
  have hc1 : c ≠ '/' := by
    intro h
    exact h1 (by simp [h])
  have hc2 : c ≠ '\\' := by
    intro h
    exact h2 (by simp [h])
  simp [repSlash, isAbsL, hc1, hc2]

lemma try_block_eq_error (ed n cwd : List Char) (e : Unit)
    (h : commonpath2 (abspath cwd (pyJoin ed n)) ed = Except.error e) :
    try_block ed n cwd = Except.error e := by
  unfold try_block
  rw [h]

lemma try_block_eq_ok (ed n cwd common : List Char)
    (h : commonpath2 (abspath cwd (pyJoin ed n)) ed = Except.ok common) :
    try_block ed n cwd =
      if common ≠ ed then Except.ok false
      else if ((ed ++ ['/']).isPrefixOf (abspath cwd (pyJoin ed n))) = false ∧
          abspath cwd (pyJoin ed n) ≠ ed then Except.ok false
      else Except.ok true := by
  unfold try_block
  rw [h]

lemma try_block_ok (cwd d n : List Char) (hn : isAbsL n = false) :
    ∃ b, try_block (abspath cwd d) n cwd = Except.ok b := by
  have hne : abspath cwd d ≠ [] := abspath_ne_nil cwd d
  have h1 : (pyJoin (abspath cwd d) n).take 1 = (abspath cwd d).take 1 :=
    pyJoin_take1 _ n (isAbsL_false_take1 hn) hne
  have h2 : isAbsL (pyJoin (abspath cwd d) n) = isAbsL (abspath cwd d) := by
    simp [isAbsL, h1]
  have h3 : isAbsL (abspath cwd (pyJoin (abspath cwd d) n)) = isAbsL (abspath cwd d) := by
    rw [isAbsL_abspath, h2, isAbsL_abspath, Bool.or_assoc, Bool.or_self]
  have hcp : commonpath2 (abspath cwd (pyJoin (abspath cwd d) n)) (abspath cwd d) =
      Except.ok ((if isAbsL (abspath cwd (pyJoin (abspath cwd d) n)) then ['/'] else []) ++
        joinSlash (lcp (cleanComps (abspath cwd (pyJoin (abspath cwd d) n)))
          (cleanComps (abspath cwd d)))) := by
    unfold commonpath2
    rw [if_neg (by simp [h3])]
  rw [try_block_eq_ok _ _ _ _ hcp]
  split_ifs <;> exact ⟨_, rfl⟩

/-- Claim C9: `is_safe_path` is total — for every input string, destination
root and working directory it returns a boolean; with exceptions made
transparent (`is_safe_pathE`), the function never raises: the
`ValueError`/`OSError` that path resolution (`commonpath` on mixed
absolute/relative inputs) can raise is caught internally and mapped to a
`false` result by the `except` handler. -/
theorem C9_is_safe_path_total (member_path extract_dir cwd : String) :
    is_safe_pathE member_path extract_dir cwd =
      Except.ok (is_safe_path member_path extract_dir cwd) := by
  unfold is_safe_path is_safe_pathE
  split_ifs with h1 h2 h3
  · rfl
  · rfl
  · rfl
  · push_neg at h1
    obtain ⟨hb, hhead⟩ :=
      try_block_ok cwd.toList extract_dir.toList (repSlash member_path.toList)
        (repSlash_not_abs member_path.toList h1.1 h1.2.1 h1.2.2)
    rw [hhead]
    rfl

/-- Claim C1: if `is_safe_path` returns `true` for a candidate path and a
destination root (with an absolute working directory, as `os.getcwd()`
always is), then joining the destination root with the (separator-
normalised) candidate and lexically resolving `.`/`..` components yields an
absolute path that is inside, or equal to, the destination root. -/
theorem C1_is_safe_path_inside (member_path extract_dir cwd : String)
    (hcwd : isAbsL cwd.toList = true)
    (hsafe : is_safe_path member_path extract_dir cwd = true) :
    isAbsL (abspath cwd.toList
        (pyJoin (abspath cwd.toList extract_dir.toList)
          (repSlash member_path.toList))) = true ∧
    (abspath cwd.toList
        (pyJoin (abspath cwd.toList extract_dir.toList)
          (repSlash member_path.toList)) =
        abspath cwd.toList extract_dir.toList ∨
      ((abspath cwd.toList extract_dir.toList ++ ['/']).isPrefixOf
        (abspath cwd.toList
          (pyJoin (abspath cwd.toList extract_dir.toList)
            (repSlash member_path.toList)))) = true) := by
  constructor
  · rw [isAbsL_abspath, hcwd, Bool.or_true]
  · unfold is_safe_path at hsafe
    split_ifs at hsafe with h1 h2 h3
    cases ht : try_block (abspath cwd.toList extract_dir.toList)
        (repSlash member_path.toList) cwd.toList with
    | error e =>
      rw [ht] at hsafe
      simp [catchBool] at hsafe
    | ok b =>
      rw [ht] at hsafe
      simp only [catchBool] at hsafe
      subst hsafe
      cases hc : commonpath2
          (abspath cwd.toList
            (pyJoin (abspath cwd.toList extract_dir.toList)
              (repSlash member_path.toList)))
          (abspath cwd.toList extract_dir.toList) with
      | error e =>
        rw [try_block_eq_error _ _ _ _ hc] at ht
        exact absurd ht (by simp)
      | ok common =>
        rw [try_block_eq_ok _ _ _ _ hc] at ht
        by_cases hq1 : common ≠ abspath cwd.toList extract_dir.toList
        · rw [if_pos hq1] at ht
          exact absurd ht (by simp)
        · rw [if_neg hq1] at ht
          by_cases hq2 : ((abspath cwd.toList extract_dir.toList ++ ['/']).isPrefixOf
              (abspath cwd.toList
                (pyJoin (abspath cwd.toList extract_dir.toList)
                  (repSlash member_path.toList)))) = false ∧
              abspath cwd.toList
                (pyJoin (abspath cwd.toList extract_dir.toList)
                  (repSlash member_path.toList)) ≠
                abspath cwd.toList extract_dir.toList
          · rw [if_pos hq2] at ht
            exact absurd ht (by simp)
          · by_cases hp : ((abspath cwd.toList extract_dir.toList ++ ['/']).isPrefixOf
                (abspath cwd.toList
                  (pyJoin (abspath cwd.toList extract_dir.toList)
                    (repSlash member_path.toList)))) = true
            · exact Or.inr hp
            · left
              have hpf : ((abspath cwd.toList extract_dir.toList ++ ['/']).isPrefixOf
                  (abspath cwd.toList
                    (pyJoin (abspath cwd.toList extract_dir.toList)
                      (repSlash member_path.toList)))) = false := by
                revert hp
                cases ((abspath cwd.toList extract_dir.toList ++ ['/']).isPrefixOf
                  (abspath cwd.toList
                    (pyJoin (abspath cwd.toList extract_dir.toList)
                      (repSlash member_path.toList)))) <;> simp
              by_contra hne
              exact hq2 ⟨hpf, hne⟩

theorem C1_witness :
    isAbsL "/".toList = true ∧ is_safe_path "a/b" "/tmp" "/" = true ∧
    (isAbsL (abspath "/".toList
        (pyJoin (abspath "/".toList "/tmp".toList) (repSlash "a/b".toList))) = true ∧
      (abspath "/".toList
          (pyJoin (abspath "/".toList "/tmp".toList) (repSlash "a/b".toList)) =
          abspath "/".toList "/tmp".toList ∨
        ((abspath "/".toList "/tmp".toList ++ ['/']).isPrefixOf
          (abspath "/".toList
            (pyJoin (abspath "/".toList "/tmp".toList) (repSlash "a/b".toList)))) = true)) :=
  ⟨by decide, by decide, C1_is_safe_path_inside "a/b" "/tmp" "/" (by decide) (by decide)⟩

lemma hasSubstr_slash_mono (l : List Char)
    (h : hasSubstr ['.', '.', '/'] l = true) :
    hasSubstr ['.', '.'] (repSlash l) = true := by
  induction l with
  | nil => simp [hasSubstr, List.isPrefixOf] at h
  | cons c rest ih =>
    rw [hasSubstr, Bool.or_eq_true] at h
    rcases h with h1 | h1
    · cases rest with
      | nil => simp [List.isPrefixOf] at h1
      | cons d rest2 =>
        simp only [List.isPrefixOf, Bool.and_eq_true, beq_iff_eq] at h1
        obtain ⟨hc, hd, -⟩ := h1
        subst hc
        subst hd
        simp [repSlash, hasSubstr, List.isPrefixOf]
    · have hrec := ih h1
      rw [show repSlash (c :: rest) =
          (if c = '\\' then '/' else c) :: repSlash rest from rfl]
      rw [hasSubstr, Bool.or_eq_true]
      exact Or.inr hrec

/-- Claim C2: for every destination root (and working directory),
`is_safe_path` returns `false` for any candidate path that contains the
substring `../` or that begins with `/` or `\`. -/
theorem C2_is_safe_path_rejects_traversal (member_path extract_dir cwd : String)
    (h : hasSubstr ['.', '.', '/'] member_path.toList = true ∨
      member_path.toList.take 1 = ['/'] ∨ member_path.toList.take 1 = ['\\']) :
    is_safe_path member_path extract_dir cwd = false := by
  unfold is_safe_path
  split_ifs with h1 h2 h3
  · rfl
  · rfl
  · rfl
  · exfalso
    rcases h with hdd | habs | hback
    · exact h2 (hasSubstr_slash_mono member_path.toList hdd)
    · exact h1 (Or.inr (Or.inl habs))
    · exact h1 (Or.inr (Or.inr hback))

theorem C2_witness :
    (hasSubstr ['.', '.', '/'] "../etc/passwd".toList = true ∨
      "../etc/passwd".toList.take 1 = ['/'] ∨
      "../etc/passwd".toList.take 1 = ['\\']) ∧
    is_safe_path "../etc/passwd" "/tmp" "/" = false :=
  ⟨Or.inl (by decide),
    C2_is_safe_path_rejects_traversal "../etc/passwd" "/tmp" "/" (Or.inl (by decide))⟩

/-- Claim C8: for every destination root (and working directory),
`is_safe_path` returns `false` for any path whose normalised
(forward-slash) form contains `..` anywhere as a substring — including
benign filenames such as `notes..txt` where `..` is not a traversal
component. -/
theorem C8_is_safe_path_rejects_dotdot_substring (member_path extract_dir cwd : String)
    (h : hasSubstr ['.', '.'] (repSlash member_path.toList) = true) :
    is_safe_path member_path extract_dir cwd = false := by
  unfold is_safe_path
  split_ifs <;> rfl

theorem C8_witness :
    hasSubstr ['.', '.'] (repSlash "notes..txt".toList) = true ∧
    is_safe_path "notes..txt" "/tmp" "/" = false :=
  ⟨by decide, C8_is_safe_path_rejects_dotdot_substring "notes..txt" "/tmp" "/" (by decide)⟩

/-! ## Lemmas and claims about `extract_tarball` -/

lemma plan_loop_all_rejected (root ed cwd : String) (l : List TarMember)
    (h : ∀ m ∈ l, member_rejected root ed cwd m = true) :
    plan_loop root ed cwd l = Except.ok [] := by
  induction l with
  | nil => rfl
  | cons m rest ih =>
    have hm := h m (List.mem_cons_self m rest)
    unfold member_rejected at hm
    cases hr : rewrite_member_name root m.name with
    | none =>
      have heq : plan_loop root ed cwd (m :: rest) = plan_loop root ed cwd rest := by
        simp only [plan_loop]
        rw [hr]
      rw [heq]
      exact ih (fun x hx => h x (List.mem_cons_of_mem m hx))
    | some nn =>
      rw [hr] at hm
      have hm2 : is_safe_path nn ed cwd = false := by
        have hb : (! is_safe_path nn ed cwd) = true := hm
        simpa using hb
      have heq : plan_loop root ed cwd (m :: rest) =
          if is_safe_path nn ed cwd = false then plan_loop root ed cwd rest
          else Except.error () := by
        simp only [plan_loop]
        rw [hr]
      rw [heq, if_pos hm2]
      exact ih (fun x hx => h x (List.mem_cons_of_mem m hx))

lemma extract_tarball_cons (m0 : TarMember) (rest : List TarMember)
    (extract_dir cwd : String) (fa : Bool) :
    extract_tarball (m0 :: rest) extract_dir cwd fa =
      match plan_loop (rootOfName m0.name) (abspathStr cwd extract_dir) cwd (m0 :: rest) with
      | Except.error _ => ⟨[FsEvent.mkdirRoot (abspathStr cwd extract_dir)],
          some ExtractError.attributeError⟩
      | Except.ok safe =>
        match safe with
        | [] => ⟨[FsEvent.mkdirRoot (abspathStr cwd extract_dir)],
            some ExtractError.noSafeMembers⟩
        | s0 :: srest =>
          ⟨FsEvent.mkdirRoot (abspathStr cwd extract_dir) ::
            write_phase fa (s0 :: srest) (rootOfName m0.name), none⟩ := rfl

/-- Claim C3: if the archive is nonempty and every member is rejected by
the validation loop (wrong root directory or unsafe rewritten path), the
extraction fails with the distinguishable `ValueError("No safe members to
extract")`, and no member is written: the only filesystem effect is the
creation of the destination root directory. -/
theorem C3_no_safe_members_failure (m0 : TarMember) (rest : List TarMember)
    (extract_dir cwd : String) (fa : Bool)
    (hrej : ∀ m ∈ m0 :: rest,
      member_rejected (rootOfName m0.name) (abspathStr cwd extract_dir) cwd m = true) :
    extract_tarball (m0 :: rest) extract_dir cwd fa =
      ⟨[FsEvent.mkdirRoot (abspathStr cwd extract_dir)],
        some ExtractError.noSafeMembers⟩ := by
  have hp := plan_loop_all_rejected (rootOfName m0.name) (abspathStr cwd extract_dir)
    cwd (m0 :: rest) hrej
  rw [extract_tarball_cons, hp]

theorem C3_witness :
    (∀ m ∈ [(⟨"proj/../x", MemberKind.reg, "", 0⟩ : TarMember)],
      member_rejected (rootOfName (⟨"proj/../x", MemberKind.reg, "", 0⟩ : TarMember).name)
        (abspathStr "/" "/tmp/out") "/" m = true) ∧
    extract_tarball [⟨"proj/../x", MemberKind.reg, "", 0⟩] "/tmp/out" "/" true =
      ⟨[FsEvent.mkdirRoot (abspathStr "/" "/tmp/out")], some ExtractError.noSafeMembers⟩ :=
  ⟨by decide,
    C3_no_safe_members_failure ⟨"proj/../x", MemberKind.reg, "", 0⟩ [] "/tmp/out" "/" true
      (by decide)⟩

/-- Claim C4 (code bug): a symbolic-link member whose target
`../../etc/passwd` fails `is_safe_path` while its own rewritten path
passes is NOT merely excluded from the plan — the whole extraction aborts
with the `AttributeError` raised by `member.islink()` on line 194, because
`tarfile.TarInfo` has no `islink` attribute.  The evaluation below shows
the divergence at a concrete archive. -/
theorem C4_attribute_error_on_unsafe_link :
    extract_tarball [⟨"proj/badlink", MemberKind.sym, "../../etc/passwd", 0⟩]
        "/tmp/out" "/" true =
      ⟨[FsEvent.mkdirRoot "/tmp/out"], some ExtractError.attributeError⟩ ∧
    is_safe_path "../../etc/passwd" "/tmp/out" "/" = false ∧
    is_safe_path "xz/badlink" "/tmp/out" "/" = true := by decide

/-- Claim C10 (code bug): a symbolic-link member with an empty link target
and a safe rewritten path is NOT accepted into the extraction plan — the
guard `member.linkname and ...` on line 196 is never reached, because the
`member.islink()` call on line 194 raises `AttributeError`
(`tarfile.TarInfo` has no `islink` attribute), aborting the extraction. -/
theorem C10_attribute_error_on_empty_linkname :
    extract_tarball [⟨"proj/link", MemberKind.sym, "", 0⟩] "/tmp/out" "/" true =
      ⟨[FsEvent.mkdirRoot "/tmp/out"], some ExtractError.attributeError⟩ ∧
    is_safe_path "xz/link" "/tmp/out" "/" = true := by decide

lemma replaceFirst_of_prefixOf (pat rep s : List Char) (h : pat.isPrefixOf s = true) :
    replaceFirst pat rep s = rep ++ s.drop pat.length := by
  cases s with
  | nil =>
    have hp : pat = [] := by
      cases pat with
      | nil => rfl
      | cons a as => simp [List.isPrefixOf] at h
    subst hp
    simp [replaceFirst]
  | cons c rest =>
    unfold replaceFirst
    rw [if_pos h]

/-- Claim C5, counterexample: with `rootDir = "proj"` (the first component
of the first member's path `proj/a.c`), the member path `proj2/file`
starts with `rootDir` as a string, and the code rewrites it to
`xz2/file` — it neither replaces the leading path component (which would
give `xz/file`, as the claim states) nor drops the member. -/
theorem C5_counterexample :
    rootOfName "proj/a.c" = "proj" ∧
    rewrite_member_name "proj" "proj2/file" = some "xz2/file" ∧
    spec_rewrite_member_name "proj" "proj2/file" = some "xz/file" ∧
    rewrite_member_name "proj" "proj2/file" ≠
      spec_rewrite_member_name "proj" "proj2/file" ∧
    rewrite_member_name "proj" "proj2/file" ≠ none := by decide

/-- Claim C5, amended: every member whose path starts with `rootDir` as a
raw string prefix (not necessarily at a component boundary) has that
prefix — not the whole leading component — replaced by the literal `xz`,
with the rest of the string preserved verbatim; every member whose path
does not start with `rootDir` as a string prefix is dropped (with a
diagnostic) rather than transformed. -/
theorem C5_root_rewrite_amended (root name : String) :
    (root.toList.isPrefixOf name.toList = true →
      rewrite_member_name root name =
        some (('x' :: 'z' :: name.toList.drop root.toList.length).asString)) ∧
    (root.toList.isPrefixOf name.toList = false →
      rewrite_member_name root name = none) := by
  constructor
  · intro h
    unfold rewrite_member_name
    rw [if_pos h, replaceFirst_of_prefixOf root.toList ['x', 'z'] name.toList h]
    rfl
  · intro h
    unfold rewrite_member_name
    rw [if_neg (fun hc => by rw [h] at hc; exact Bool.false_ne_true hc)]

theorem C5_witness :
    "proj".toList.isPrefixOf "proj/src/a.c".toList = true ∧
    rewrite_member_name "proj" "proj/src/a.c" =
      some (('x' :: 'z' :: "proj/src/a.c".toList.drop "proj".toList.length).asString) :=
  ⟨by decide, (C5_root_rewrite_amended "proj" "proj/src/a.c").1 (by decide)⟩

lemma extract_member_step_link (plan : List TarMember) (root : String) (m : TarMember)
    (hl : m.typ = MemberKind.sym ∨ m.typ = MemberKind.lnk) :
    extract_member_step plan root m =
      if plan.any (fun pm => decide (pm.name = rewrite_link_target root m.linkname)) then
        [FsEvent.linkCreated m.name (rewrite_link_target root m.linkname)]
      else [] := by
  unfold extract_member_step
  rcases hl with h | h <;> rw [h]

lemma write_member_link (fa : Bool) (plan : List TarMember) (root : String)
    (m : TarMember) (hl : m.typ = MemberKind.sym ∨ m.typ = MemberKind.lnk) :
    write_member fa plan root m = extract_member_step plan root m := by
  unfold write_member
  cases fa with
  | true => rw [if_pos rfl]
  | false =>
    rw [if_neg (by simp), if_neg (by rcases hl with h | h <;> simp [h])]

/-- Claim C6: during the write phase, every planned link member (symbolic
or hard) is materialized by the per-member extraction step — which, per the
spec (its implementation lives in Python's `tarfile`, outside this
repository), recreates the link pointing at the rewritten (root-renamed)
target exactly when that target is itself within the extraction plan, and
otherwise skips the link; the oversized-file fallback guard never applies
to link members. -/
theorem C6_write_phase_links (fa : Bool) (pre post : List TarMember) (root : String)
    (m : TarMember) (hl : m.typ = MemberKind.sym ∨ m.typ = MemberKind.lnk) :
    write_phase fa (pre ++ m :: post) root =
      (pre.map (write_member fa (pre ++ m :: post) root)).flatten ++
      ((if (pre ++ m :: post).any
            (fun pm => decide (pm.name = rewrite_link_target root m.linkname)) then
          [FsEvent.linkCreated m.name (rewrite_link_target root m.linkname)]
        else []) ++
        (post.map (write_member fa (pre ++ m :: post) root)).flatten) := by
  unfold write_phase
  rw [List.map_append, List.flatten_append, List.map_cons, List.flatten_cons,
    write_member_link fa (pre ++ m :: post) root m hl,
    extract_member_step_link (pre ++ m :: post) root m hl]

theorem C6_witness :
    ((⟨"xz/a", MemberKind.sym, "xz/b", 0⟩ : TarMember).typ = MemberKind.sym ∨
      (⟨"xz/a", MemberKind.sym, "xz/b", 0⟩ : TarMember).typ = MemberKind.lnk) ∧
    write_phase false
        ([] ++ (⟨"xz/a", MemberKind.sym, "xz/b", 0⟩ : TarMember) ::
          [(⟨"xz/b", MemberKind.reg, "", 0⟩ : TarMember)]) "proj" =
      (([] : List TarMember).map
          (write_member false
            ([] ++ (⟨"xz/a", MemberKind.sym, "xz/b", 0⟩ : TarMember) ::
              [(⟨"xz/b", MemberKind.reg, "", 0⟩ : TarMember)]) "proj")).flatten ++
      ((if ([] ++ (⟨"xz/a", MemberKind.sym, "xz/b", 0⟩ : TarMember) ::
            [(⟨"xz/b", MemberKind.reg, "", 0⟩ : TarMember)]).any
            (fun pm => decide (pm.name =
              rewrite_link_target "proj"
                (⟨"xz/a", MemberKind.sym, "xz/b", 0⟩ : TarMember).linkname)) then
          [FsEvent.linkCreated (⟨"xz/a", MemberKind.sym, "xz/b", 0⟩ : TarMember).name
            (rewrite_link_target "proj"
              (⟨"xz/a", MemberKind.sym, "xz/b", 0⟩ : TarMember).linkname)]
        else []) ++
        ([(⟨"xz/b", MemberKind.reg, "", 0⟩ : TarMember)].map
          (write_member false
            ([] ++ (⟨"xz/a", MemberKind.sym, "xz/b", 0⟩ : TarMember) ::
              [(⟨"xz/b", MemberKind.reg, "", 0⟩ : TarMember)]) "proj")).flatten) :=
  ⟨Or.inl rfl,
    C6_write_phase_links false [] [⟨"xz/b", MemberKind.reg, "", 0⟩] "proj"
      ⟨"xz/a", MemberKind.sym, "xz/b", 0⟩ (Or.inl rfl)⟩

/-- Claim C7: when the runtime's native per-member safety filter is
unavailable (the `filter='data'` call raises `TypeError`), every
regular-file member whose declared size exceeds 100 MiB is skipped by the
manual fallback check and not written to disk: its write step produces no
filesystem event. -/
theorem C7_oversize_file_skipped (plan : List TarMember) (root : String)
    (m : TarMember) (hreg : m.typ = MemberKind.reg)
    (hsize : 100 * 1024 * 1024 < m.size) :
    write_member false plan root m = [] := by
  unfold write_member
  rw [if_neg (by simp), if_pos ⟨hreg, hsize⟩]

theorem C7_witness :
    (⟨"xz/huge.bin", MemberKind.reg, "", 200 * 1024 * 1024⟩ : TarMember).typ =
      MemberKind.reg ∧
    100 * 1024 * 1024 < (⟨"xz/huge.bin", MemberKind.reg, "", 200 * 1024 * 1024⟩ :
      TarMember).size ∧
    write_member false [] "xz" ⟨"xz/huge.bin", MemberKind.reg, "", 200 * 1024 * 1024⟩ = [] :=
  ⟨rfl, by decide,
    C7_oversize_file_skipped [] "xz" ⟨"xz/huge.bin", MemberKind.reg, "", 200 * 1024 * 1024⟩
      rfl (by decide)⟩

example :
    write_phase false [⟨"xz/a", MemberKind.sym, "xz/b", 0⟩,
        ⟨"xz/b", MemberKind.reg, "", 0⟩] "proj" =
      [FsEvent.linkCreated "xz/a" "xz/b", FsEvent.written "xz/b"] := by decide

example :
    write_phase false [⟨"xz/a", MemberKind.sym, "../../etc/shadow", 0⟩,
        ⟨"xz/b", MemberKind.reg, "", 0⟩] "proj" =
      [FsEvent.written "xz/b"] := by decide
